import Mathlib

/-!
Shallow embedding of the igor-arbitrage opportunity/position engine.

The repository carries two generations of the engine:
* `src/arbitrage.ts` — the earlier generation (gross trade sizing, hardcoded
  1000-USDT execution notional, a sell leg that is attempted even after a
  failed buy, and a one-leg supervisor unwind);
* the module concatenated into `src/worker.ts` — the current generation
  (net-of-fees sizing, hardcoded 5-USDT execution notional with a 3-USDT
  Gate minimum, early return on a failed buy, and a two-leg supervisor
  unwind with a `convergenceRange` trigger).

Both generations are embedded below (prefixes `arb` / `worker`).  Prices and
amounts are modelled as rationals; wall-clock timestamps as integers; order
placement and ticker/book fetches are oracles passed in as `Except`/`Option`
arguments, and each model returns the orders it actually placed, the Trade
rows it saved, and the final saved state of the Position it touched.
-/

inductive VenueKind where
  | spot
  | futures
deriving DecidableEq, Repr

inductive Side where
  | buy
  | sell
deriving DecidableEq, Repr

inductive OppType where
  | arbitrage
  | convergence
deriving DecidableEq, Repr

/-- An exchange as the engine sees it: `name`, its `type` column
(`spot`/`futures`), and whether the ccxt instance id contains `"gate"`
(the only instance property the engine branches on). -/
structure ExchangeInfo where
  name : String
  kind : VenueKind
  gateId : Bool
deriving DecidableEq, Repr

/-- The `Opportunity` interface of `arbitrage.ts` / `worker.ts`. -/
structure Opportunity where
  type : OppType
  buyExchange : String
  sellExchange : String
  symbol : String
  buyPrice : ℚ
  sellPrice : ℚ
  profit : ℚ
deriving DecidableEq, Repr

/-- The `Position` entity (timestamp as an integer clock reading). -/
structure Position where
  symbol : String
  exchange : String
  amount : ℚ
  buyPrice : ℚ
  timestamp : ℤ
  closed : Bool
  stopLossPrice : Option ℚ
  sellPrice : Option ℚ
  profit : Option ℚ
deriving DecidableEq, Repr

/-- The `Trade` entity: one audit row per attempted order. -/
structure Trade where
  symbol : String
  exchange : String
  side : Side
  amount : ℚ
  price : ℚ
  success : Bool
  error : Option String
deriving DecidableEq, Repr

/-- One `createMarketBuyOrder` / `createMarketSellOrder` call actually issued
against a venue. -/
structure OrderRequest where
  exchange : String
  side : Side
  symbol : String
  amount : ℚ
deriving DecidableEq, Repr

/-- Everything `executeOpportunity` persists or issues in one invocation:
the final saved state of the Position it created (if any), the Trade rows
saved, and the orders placed, in program order. -/
structure ExecResult where
  position : Option Position
  trades : List Trade
  orders : List OrderRequest
deriving DecidableEq, Repr

/-- `executeOpportunity` of the worker generation
(`worker.ts`): resolves a spot buy venue and a futures sell venue, creates an
open Position sized from the hardcoded 5-USDT notional net of fees (clamped
up to the 3-USDT Gate minimum), attempts the buy leg (notional-sized on
Gate, quantity-sized elsewhere) and returns after saving a failed buy Trade
if it errors; otherwise attempts the sell leg, which on success re-saves the
Position with `closed` still `false` and `sellPrice`/`profit` copied from
the Opportunity. -/
def workerExecuteOpportunity (op : Opportunity) (exchanges : List ExchangeInfo)
    (buyOutcome sellOutcome : Except String Unit) (now : ℤ) : ExecResult :=
  match exchanges.find? (fun e => e.name == op.buyExchange && e.kind == VenueKind.spot),
        exchanges.find? (fun e => e.name == op.sellExchange && e.kind == VenueKind.futures) with
  | some buyEx, some sellEx =>
    let tradeAmount : ℚ := 5
    let feeRate : ℚ := 1/1000
    let netTradeAmount := tradeAmount / (1 + feeRate * 2)
    let amountBuy := max netTradeAmount 3
    let amountSell := amountBuy / op.buyPrice
    let position : Position :=
      { symbol := op.symbol, exchange := op.buyExchange, amount := amountSell,
        buyPrice := op.buyPrice, timestamp := now, closed := false,
        stopLossPrice := some (op.buyPrice * (1 - 5/100)),
        sellPrice := none, profit := none }
    let buyOrder : OrderRequest :=
      { exchange := buyEx.name, side := Side.buy, symbol := op.symbol,
        amount := if buyEx.gateId then amountBuy else amountSell }
    match buyOutcome with
    | Except.error msg =>
      let buyTrade : Trade :=
        { symbol := op.symbol, exchange := op.buyExchange, side := Side.buy,
          amount := amountBuy, price := op.buyPrice, success := false, error := some msg }
      { position := some position, trades := [buyTrade], orders := [buyOrder] }
    | Except.ok _ =>
      let buyTrade : Trade :=
        { symbol := op.symbol, exchange := op.buyExchange, side := Side.buy,
          amount := amountBuy, price := op.buyPrice, success := true, error := none }
      let sellOrder : OrderRequest :=
        { exchange := sellEx.name, side := Side.sell, symbol := op.symbol,
          amount := amountSell }
      match sellOutcome with
      | Except.ok _ =>
        let sellTrade : Trade :=
          { symbol := op.symbol, exchange := op.sellExchange, side := Side.sell,
            amount := amountSell, price := op.sellPrice, success := true, error := none }
        let position' := { position with
          closed := false, sellPrice := some op.sellPrice, profit := some op.profit }
        { position := some position', trades := [buyTrade, sellTrade],
          orders := [buyOrder, sellOrder] }
      | Except.error msg =>
        let sellTrade : Trade :=
          { symbol := op.symbol, exchange := op.sellExchange, side := Side.sell,
            amount := amountSell, price := op.sellPrice, success := false, error := some msg }
        { position := some position, trades := [buyTrade, sellTrade],
          orders := [buyOrder, sellOrder] }
  | _, _ => { position := none, trades := [], orders := [] }

/-- `executeOpportunity` of the earlier generation (`arbitrage.ts`): sizes
from the hardcoded 1000-USDT notional, and a failed buy leg does *not*
return early — the sell leg is attempted regardless, and a successful sell
sets `closed := true`.  A venue that fails to resolve makes the
corresponding `?.`-chained order a no-op that counts as success. -/
def arbExecuteOpportunity (op : Opportunity) (exchanges : List ExchangeInfo)
    (buyOutcome sellOutcome : Except String Unit) (now : ℤ) : ExecResult :=
  let buyEx? := exchanges.find? (fun e => e.name == op.buyExchange)
  let sellEx? := exchanges.find? (fun e => e.name == op.sellExchange)
  let amount := 1000 / op.buyPrice
  let position : Position :=
    { symbol := op.symbol, exchange := op.buyExchange, amount := amount,
      buyPrice := op.buyPrice, timestamp := now, closed := false,
      stopLossPrice := some (op.buyPrice * (1 - 5/100)),
      sellPrice := none, profit := none }
  let buyLeg : Bool × Option String × List OrderRequest :=
    match buyEx? with
    | none => (true, none, [])
    | some be =>
      match buyOutcome with
      | Except.ok _ => (true, none,
          [{ exchange := be.name, side := Side.buy, symbol := op.symbol, amount := amount }])
      | Except.error msg => (false, some msg,
          [{ exchange := be.name, side := Side.buy, symbol := op.symbol, amount := amount }])
  let buyTrade : Trade :=
    { symbol := op.symbol, exchange := op.buyExchange, side := Side.buy,
      amount := amount, price := op.buyPrice,
      success := buyLeg.1, error := buyLeg.2.1 }
  let sellLeg : Bool × Option String × List OrderRequest :=
    match sellEx? with
    | none => (true, none, [])
    | some se =>
      match sellOutcome with
      | Except.ok _ => (true, none,
          [{ exchange := se.name, side := Side.sell, symbol := op.symbol, amount := amount }])
      | Except.error msg => (false, some msg,
          [{ exchange := se.name, side := Side.sell, symbol := op.symbol, amount := amount }])
  let sellTrade : Trade :=
    { symbol := op.symbol, exchange := op.sellExchange, side := Side.sell,
      amount := amount, price := op.sellPrice,
      success := sellLeg.1, error := sellLeg.2.1 }
  let position' :=
    if sellLeg.1 then
      { position with closed := true, sellPrice := some op.sellPrice, profit := some op.profit }
    else position
  { position := some position', trades := [buyTrade, sellTrade],
    orders := buyLeg.2.2 ++ sellLeg.2.2 }

/-- JS `Math.abs`, written out so that it evaluates by kernel reduction. -/
def mathAbs (x : ℚ) : ℚ := if x < 0 then -x else x

/-- Parameters threaded through `manageOpenPositions` into the supervisor. -/
structure SupervisorConfig where
  minProfit : ℚ
  maxProfit : ℚ
  stopLossPercent : ℚ
  stopLossTimeout : ℤ
  convergenceRange : ℚ
deriving DecidableEq, Repr

/-- Result of one supervisor pass over one position: the position's saved
state afterwards, the Trade rows saved, and the orders placed. -/
structure SupervResult where
  position : Position
  trades : List Trade
  orders : List OrderRequest
deriving DecidableEq, Repr

/-- The JS `pos.stopLossPrice || fallback` coalescing: a missing *or zero*
(falsy) stored stop-loss price falls back to the percent-derived one. -/
def stopLossBase (pos : Position) (stopLossPercent : ℚ) : ℚ :=
  match pos.stopLossPrice with
  | some p => if p ≠ 0 then p else pos.buyPrice * (1 - stopLossPercent / 100)
  | none => pos.buyPrice * (1 - stopLossPercent / 100)

/-- `tryConvergenceForPosition` of the worker generation (`worker.ts`):
skips closed or non-spot positions, re-quotes both legs (a missing `last`
coalesces to 0), and when convergence or stop-loss triggers, unwinds by
selling on the spot venue (notional-sized with a 3-USDT floor on Gate,
quantity-sized elsewhere) and then, only if that sell succeeded, buying
back on the first futures venue; only when both legs succeed is the
position saved with `closed := true`, `sellPrice := spotPrice` and
`profit := (spotPrice - buyPrice) * amount * (1 - feeRate*2)`. -/
def workerTryConvergenceForPosition (pos : Position) (exchanges : List ExchangeInfo)
    (cfg : SupervisorConfig) (spotTicker futuresTicker : Option ℚ) (now : ℤ)
    (spotOutcome futOutcome : Except String Unit) : SupervResult :=
  match exchanges.find? (fun e => e.name == pos.exchange && e.kind == VenueKind.spot) with
  | none => { position := pos, trades := [], orders := [] }
  | some buyEx =>
    if pos.closed || !(buyEx.kind == VenueKind.spot) then
      { position := pos, trades := [], orders := [] }
    else
      match (exchanges.filter (fun e => e.kind == VenueKind.futures)).head? with
      | none => { position := pos, trades := [], orders := [] }
      | some futuresEx =>
        let spotPrice := spotTicker.getD 0
        let futuresPrice := futuresTicker.getD 0
        let timeElapsed := now - pos.timestamp
        let stopLossTriggered :=
          spotPrice ≤ stopLossBase pos cfg.stopLossPercent ∨
          timeElapsed > cfg.stopLossTimeout
        let convergenceDetected := mathAbs (spotPrice - futuresPrice) ≤ cfg.convergenceRange
        if convergenceDetected ∨ stopLossTriggered then
          let amount := pos.amount
          let feeRate : ℚ := 1/1000
          let sellCost := amount * spotPrice
          let adjustedSellCost := max sellCost 3
          let spotOrder : OrderRequest :=
            { exchange := buyEx.name, side := Side.sell, symbol := pos.symbol,
              amount := if buyEx.gateId then adjustedSellCost / spotPrice else amount }
          match spotOutcome with
          | Except.error msg =>
            let spotSellTrade : Trade :=
              { symbol := pos.symbol, exchange := buyEx.name, side := Side.sell,
                amount := adjustedSellCost, price := spotPrice,
                success := false, error := some msg }
            { position := pos, trades := [spotSellTrade], orders := [spotOrder] }
          | Except.ok _ =>
            let spotSellTrade : Trade :=
              { symbol := pos.symbol, exchange := buyEx.name, side := Side.sell,
                amount := adjustedSellCost, price := spotPrice,
                success := true, error := none }
            let futOrder : OrderRequest :=
              { exchange := futuresEx.name, side := Side.buy, symbol := pos.symbol,
                amount := amount }
            match futOutcome with
            | Except.ok _ =>
              let futuresBuyTrade : Trade :=
                { symbol := pos.symbol, exchange := futuresEx.name, side := Side.buy,
                  amount := amount, price := futuresPrice, success := true, error := none }
              let pos' := { pos with
                closed := true, sellPrice := some spotPrice,
                profit := some ((spotPrice - pos.buyPrice) * amount * (1 - feeRate * 2)) }
              { position := pos', trades := [spotSellTrade, futuresBuyTrade],
                orders := [spotOrder, futOrder] }
            | Except.error msg =>
              let futuresBuyTrade : Trade :=
                { symbol := pos.symbol, exchange := futuresEx.name, side := Side.buy,
                  amount := amount, price := futuresPrice,
                  success := false, error := some msg }
              { position := pos, trades := [spotSellTrade, futuresBuyTrade],
                orders := [spotOrder, futOrder] }
        else
          { position := pos, trades := [], orders := [] }

/-- The `for (const sellEx of futuresExchanges)` loop of the earlier
generation's `tryConvergenceForPosition`: each futures venue is re-quoted
(`ticker`), a sell is attempted when the estimated profit is within bounds
or (failing that) when stop-loss has triggered, and the first successful
sell closes the position and `break`s out. -/
def arbSupervLoop (pos : Position) (cfg : SupervisorConfig) (stopLossTriggered : Bool)
    (ticker : String → Option ℚ) (outcome : String → Except String Unit) :
    List ExchangeInfo → Position × List Trade × List OrderRequest
  | [] => (pos, [], [])
  | sellEx :: rest =>
    let sellPrice := (ticker sellEx.name).getD 0
    let feeRate : ℚ := 1/1000
    let profit := (sellPrice - pos.buyPrice) * pos.amount * (1 - feeRate * 2)
    let order : OrderRequest :=
      { exchange := sellEx.name, side := Side.sell, symbol := pos.symbol,
        amount := pos.amount }
    let okTrade : Trade :=
      { symbol := pos.symbol, exchange := sellEx.name, side := Side.sell,
        amount := pos.amount, price := sellPrice, success := true, error := none }
    let failTrade (msg : String) : Trade :=
      { symbol := pos.symbol, exchange := sellEx.name, side := Side.sell,
        amount := pos.amount, price := sellPrice, success := false, error := some msg }
    if cfg.minProfit ≤ profit ∧ profit ≤ cfg.maxProfit then
      match outcome sellEx.name with
      | Except.ok _ =>
        ({ pos with closed := true, sellPrice := some sellPrice, profit := some profit },
         [okTrade], [order])
      | Except.error msg =>
        let r := arbSupervLoop pos cfg stopLossTriggered ticker outcome rest
        (r.1, failTrade msg :: r.2.1, order :: r.2.2)
    else if stopLossTriggered then
      match outcome sellEx.name with
      | Except.ok _ =>
        ({ pos with closed := true, sellPrice := some sellPrice, profit := some profit },
         [okTrade], [order])
      | Except.error msg =>
        let r := arbSupervLoop pos cfg stopLossTriggered ticker outcome rest
        (r.1, failTrade msg :: r.2.1, order :: r.2.2)
    else
      arbSupervLoop pos cfg stopLossTriggered ticker outcome rest

/-- `tryConvergenceForPosition` of the earlier generation (`arbitrage.ts`):
a one-leg unwind — it sells on some futures venue when profit bounds or
stop-loss allow, and closing requires only that single sell to succeed.
`currentTicker` is the spot venue's re-quote (used for the stop-loss test),
`ticker`/`outcome` index the futures venues by name. -/
def arbTryConvergenceForPosition (pos : Position) (exchanges : List ExchangeInfo)
    (cfg : SupervisorConfig) (currentTicker : Option ℚ)
    (ticker : String → Option ℚ) (outcome : String → Except String Unit)
    (now : ℤ) : SupervResult :=
  match exchanges.find? (fun e => e.name == pos.exchange) with
  | none => { position := pos, trades := [], orders := [] }
  | some buyEx =>
    if pos.closed || !(buyEx.kind == VenueKind.spot) then
      { position := pos, trades := [], orders := [] }
    else
      let futuresExchanges := exchanges.filter (fun e => e.kind == VenueKind.futures)
      let currentPrice := currentTicker.getD 0
      let stopLossTriggered :=
        currentPrice ≤ stopLossBase pos cfg.stopLossPercent ∨
        now - pos.timestamp > cfg.stopLossTimeout
      let r := arbSupervLoop pos cfg (decide stopLossTriggered) ticker outcome futuresExchanges
      { position := r.1, trades := r.2.1, orders := r.2.2 }

/-- Thresholds the scorer receives. -/
structure ScorerConfig where
  minVolume : ℚ
  minProfit : ℚ
  maxProfit : ℚ
  tradeAmount : ℚ
deriving DecidableEq, Repr

/-- Top-of-book sizes returned by the joint `fetchOrderBook` pair:
`bids[0]?.[1]` on the spot book and `asks[0]?.[1]` on the futures book
(either may be absent, coalesced to 0 by `|| 0`). -/
structure BookTops where
  spotTopBidQty : Option ℚ
  futuresTopAskQty : Option ℚ
deriving DecidableEq, Repr

/-- One (spot venue, futures venue, symbol) evaluation of the worker
generation's scorer: net-of-fees sizing
`amount = (tradeAmount / (1 + 2*feeRate)) / spotPrice`, inclusive volume and
top-of-book liquidity gates, and a single arbitrage branch requiring
`spotPrice < futuresPrice` with
`profitNet = profitGross - profitGross * feeRate * 2` inside
`[minProfit, maxProfit]` (inclusive). -/
def workerEvalPair (spotName futuresName symbol : String)
    (dataSpot dataFutures : Option (ℚ × ℚ))
    (books : Except String BookTops) (cfg : ScorerConfig) : List Opportunity :=
  match dataSpot, dataFutures with
  | some ds, some df =>
    let spotPrice := ds.1
    let futuresPrice := df.1
    if ds.2 < cfg.minVolume ∨ df.2 < cfg.minVolume then []
    else
      let feeRate : ℚ := 1/1000
      let netTradeAmount := cfg.tradeAmount / (1 + feeRate * 2)
      let amount := netTradeAmount / spotPrice
      match books with
      | Except.error _ => []
      | Except.ok tops =>
        let buyVolume := tops.spotTopBidQty.getD 0
        let sellVolume := tops.futuresTopAskQty.getD 0
        if buyVolume < amount ∨ sellVolume < amount then []
        else if spotPrice < futuresPrice then
          let profitGross := (futuresPrice - spotPrice) * amount
          let profitNet := profitGross - profitGross * feeRate * 2
          if cfg.minProfit ≤ profitNet ∧ profitNet ≤ cfg.maxProfit then
            [{ type := OppType.arbitrage, buyExchange := spotName,
               sellExchange := futuresName, symbol := symbol,
               buyPrice := spotPrice, sellPrice := futuresPrice, profit := profitNet }]
          else []
        else []
  | _, _ => []

/-- One (spot venue, futures venue, symbol) evaluation of the earlier
generation's scorer (`arbitrage.ts`): gross sizing
`amount = tradeAmount / spotPrice`, the same gates, the arbitrage branch,
plus a secondary convergence branch firing when `|spot - futures| > 10`. -/
def arbEvalPair (spotName futuresName symbol : String)
    (dataSpot dataFutures : Option (ℚ × ℚ))
    (books : Except String BookTops) (cfg : ScorerConfig) : List Opportunity :=
  match dataSpot, dataFutures with
  | some ds, some df =>
    let spotPrice := ds.1
    let futuresPrice := df.1
    if ds.2 < cfg.minVolume ∨ df.2 < cfg.minVolume then []
    else
      let feeRate : ℚ := 1/1000
      let amount := cfg.tradeAmount / spotPrice
      match books with
      | Except.error _ => []
      | Except.ok tops =>
        let buyVolume := tops.spotTopBidQty.getD 0
        let sellVolume := tops.futuresTopAskQty.getD 0
        if buyVolume < amount ∨ sellVolume < amount then []
        else
          let arbBranch : List Opportunity :=
            if spotPrice < futuresPrice then
              let profitGross := (futuresPrice - spotPrice) * amount
              let profitNet := profitGross - profitGross * feeRate * 2
              if cfg.minProfit ≤ profitNet ∧ profitNet ≤ cfg.maxProfit then
                [{ type := OppType.arbitrage, buyExchange := spotName,
                   sellExchange := futuresName, symbol := symbol,
                   buyPrice := spotPrice, sellPrice := futuresPrice, profit := profitNet }]
              else []
            else []
          let convBranch : List Opportunity :=
            if mathAbs (spotPrice - futuresPrice) > 10 then
              let profitEstimate := mathAbs (spotPrice - futuresPrice) * amount * (1 - feeRate * 2)
              if cfg.minProfit ≤ profitEstimate ∧ profitEstimate ≤ cfg.maxProfit then
                [{ type := OppType.convergence,
                   buyExchange := if spotPrice < futuresPrice then spotName else futuresName,
                   sellExchange := if spotPrice < futuresPrice then futuresName else spotName,
                   symbol := symbol,
                   buyPrice := min spotPrice futuresPrice,
                   sellPrice := max spotPrice futuresPrice, profit := profitEstimate }]
              else []
            else []
          arbBranch ++ convBranch
  | _, _ => []

/-- A raw ccxt ticker as the poller consumes it: `last` and `baseVolume`,
either of which may be absent. -/
structure TickerData where
  last : Option ℚ
  baseVolume : Option ℚ
deriving DecidableEq, Repr

/-- A persisted `Price` row (timestamp elided). -/
structure PriceRecord where
  symbol : String
  exchange : String
  price : ℚ
  volume : Option ℚ
  opportunityType : Option OppType
  profit : Option ℚ
deriving DecidableEq, Repr

/-- The in-process `prices` object: (venue name, symbol) → latest observed
(price, volume). -/
def PriceCache := String → String → Option (ℚ × ℚ)

def updateCache (c : PriceCache) (v s : String) (q : ℚ × ℚ) : PriceCache :=
  fun v' s' => if v' = v ∧ s' = s then some q else c v' s'

/-- `prices[ex.name] = {}`: the venue's whole slice is reset at the start of
its per-cycle fetch loop. -/
def clearVenue (c : PriceCache) (v : String) : PriceCache :=
  fun v' s' => if v' = v then none else c v' s'

/-- The poller's per-venue inner loop: for each symbol in order, fetch the
ticker; a throw is logged and skipped, a returned ticker writes
`(last ?? 0, baseVolume ?? 0)` into the cache and appends a persisted Price
row.  Returns the updated cache and the rows persisted, in order. -/
def pollSymbols (fetch : String → String → Except String TickerData) (v : String) :
    List String → PriceCache → PriceCache × List PriceRecord
  | [], c => (c, [])
  | s :: rest, c =>
    match fetch v s with
    | Except.error _ => pollSymbols fetch v rest c
    | Except.ok t =>
      let price := t.last.getD 0
      let volume := t.baseVolume.getD 0
      let r := pollSymbols fetch v rest (updateCache c v s (price, volume))
      (r.1, { symbol := s, exchange := v, price := price, volume := some volume,
              opportunityType := none, profit := none } :: r.2)

/-- One venue's per-cycle fetch pass: reset the venue's cache slice, then
run the symbol loop. -/
def pollVenue (fetch : String → String → Except String TickerData) (v : String)
    (symbols : List String) (c : PriceCache) : PriceCache × List PriceRecord :=
  pollSymbols fetch v symbols (clearVenue c v)

/-- One whole polling cycle over every configured venue (the `Promise.all`
over venues, sequentialised; each venue writes only its own cache slice). -/
def pollVenues (fetch : String → String → Except String TickerData)
    (symbols : List String) : List String → PriceCache → PriceCache × List PriceRecord
  | [], c => (c, [])
  | v :: rest, c =>
    let r₁ := pollVenue fetch v symbols c
    let r₂ := pollVenues fetch symbols rest r₁.1
    (r₂.1, r₁.2 ++ r₂.2)

/-- All the inputs one scorer pair-evaluation consumes in a cycle. -/
structure PairInput where
  spotName : String
  futuresName : String
  symbol : String
  dataSpot : Option (ℚ × ℚ)
  dataFutures : Option (ℚ × ℚ)
  books : Except String BookTops

/-- The opportunities one cycle of the worker generation's scorer emits,
over its (spot venue, futures venue, symbol) triples. -/
def cycleOpportunities (cfg : ScorerConfig) (inputs : List PairInput) : List Opportunity :=
  inputs.flatMap (fun i =>
    workerEvalPair i.spotName i.futuresName i.symbol i.dataSpot i.dataFutures i.books cfg)

/-- The `monitorLoop` of `monitorOpportunities`: each cycle appends the
cycle's qualifying opportunities to the running accumulator and returns it
as soon as it is non-empty; otherwise it sleeps 5s and loops.  `fuel` bounds
how many further cycles we observe — `none` means the loop was still
running (it never returns empty-handed). -/
def monitorLoop (cfg : ScorerConfig) (cycles : Nat → List PairInput) :
    Nat → List Opportunity → Nat → Option (List Opportunity)
  | _, _, 0 => none
  | k, acc, fuel + 1 =>
    let acc' := acc ++ cycleOpportunities cfg (cycles k)
    if acc'.length > 0 then some acc'
    else monitorLoop cfg cycles (k + 1) acc' fuel

/-- The operations of the system that touch Positions, over both
generations: the two `executeOpportunity` variants append the Position they
create; the two `tryConvergenceForPosition` variants rewrite the open
position they were handed. -/
inductive SysOp where
  | execArb (op : Opportunity) (buyOutcome sellOutcome : Except String Unit) (now : ℤ)
  | execWorker (op : Opportunity) (buyOutcome sellOutcome : Except String Unit) (now : ℤ)
  | supervWorker (idx : Nat) (cfg : SupervisorConfig)
      (spotTicker futuresTicker : Option ℚ) (now : ℤ)
      (spotOutcome futOutcome : Except String Unit)
  | supervArb (idx : Nat) (cfg : SupervisorConfig) (currentTicker : Option ℚ)
      (ticker : String → Option ℚ) (outcome : String → Except String Unit) (now : ℤ)

/-- Effect of one operation on the store of Position rows. -/
def applyOp (exchanges : List ExchangeInfo) (store : List Position) : SysOp → List Position
  | SysOp.execArb op b s now =>
    match (arbExecuteOpportunity op exchanges b s now).position with
    | some p => store ++ [p]
    | none => store
  | SysOp.execWorker op b s now =>
    match (workerExecuteOpportunity op exchanges b s now).position with
    | some p => store ++ [p]
    | none => store
  | SysOp.supervWorker idx cfg st ft now so fo =>
    match store[idx]? with
    | some pos =>
      store.set idx (workerTryConvergenceForPosition pos exchanges cfg st ft now so fo).position
    | none => store
  | SysOp.supervArb idx cfg ct tk oc now =>
    match store[idx]? with
    | some pos =>
      store.set idx (arbTryConvergenceForPosition pos exchanges cfg ct tk oc now).position
    | none => store

/-- A whole history: the store after running a sequence of operations. -/
def runOps (exchanges : List ExchangeInfo) (store : List Position) :
    List SysOp → List Position
  | [] => store
  | o :: rest => runOps exchanges (applyOp exchanges store o) rest

/-! ### Concrete fixtures used by witnesses and counterexamples -/

def exSpot : ExchangeInfo := { name := "gate", kind := VenueKind.spot, gateId := true }

def exFut : ExchangeInfo := { name := "bybit", kind := VenueKind.futures, gateId := false }

def sampleExchanges : List ExchangeInfo := [exSpot, exFut]

def sampleOp : Opportunity :=
  { type := OppType.arbitrage, buyExchange := "gate", sellExchange := "bybit",
    symbol := "XRP/USDT", buyPrice := 100, sellPrice := 110, profit := 99 }

def sampleSupervCfg : SupervisorConfig :=
  { minProfit := 5, maxProfit := 1000, stopLossPercent := 5,
    stopLossTimeout := 3600000, convergenceRange := 5 }

def samplePos : Position :=
  { symbol := "XRP/USDT", exchange := "gate", amount := 1/20, buyPrice := 100,
    timestamp := 0, closed := false, stopLossPrice := some 95,
    sellPrice := none, profit := none }

def sampleClosedPos : Position :=
  { symbol := "XRP/USDT", exchange := "gate", amount := 1/20, buyPrice := 100,
    timestamp := 0, closed := true, stopLossPrice := some 95,
    sellPrice := some 102, profit := some (499/5000) }

/-- Records not belonging to the designated (venue, symbol) slot. -/
def offSlot (v₀ s₀ : String) (r : PriceRecord) : Bool :=
  !(r.exchange == v₀ && r.symbol == s₀)

def c7fetchOk : String → String → Except String TickerData :=
  fun _ _ => Except.ok { last := some 1, baseVolume := some 2 }

def c7fetchFail : String → String → Except String TickerData :=
  fun p q =>
    if p = "gate" ∧ q = "BTC/USDT" then Except.error "timeout"
    else Except.ok { last := some 1, baseVolume := some 2 }

def c8fetch : String → String → Except String TickerData :=
  fun _ _ => Except.ok { last := none, baseVolume := some 5 }

def c9posWorker : Position :=
  { symbol := "XRP/USDT", exchange := "gate",
    amount := max (5 / (1 + (1/1000 : ℚ) * 2)) 3 / 100, buyPrice := 100,
    timestamp := 0, closed := false,
    stopLossPrice := some (100 * (1 - 5/100)), sellPrice := none, profit := none }

def c9posArb : Position :=
  { symbol := "XRP/USDT", exchange := "gate", amount := 1000 / 100, buyPrice := 100,
    timestamp := 0, closed := false,
    stopLossPrice := some (100 * (1 - 5/100)), sellPrice := none, profit := none }

def c10cycle : PairInput :=
  { spotName := "gate", futuresName := "bybit", symbol := "XRP/USDT",
    dataSpot := some (100, 200), dataFutures := some (110, 200),
    books := Except.ok { spotTopBidQty := some 1000, futuresTopAskQty := some 1000 } }

/-! ### C1: failed buy leg in `executeOpportunity` -/

/-- C1 (counterexample): in the `arbitrage.ts` generation of
`executeOpportunity`, a failed buy leg does NOT abort the sequence — a
sell order is still placed and a sell-side Trade recorded, contradicting
the claim that the sell leg is never attempted after a failed buy. -/
theorem arbExecuteOpportunity_buy_failure_still_sells :
    ((arbExecuteOpportunity sampleOp sampleExchanges
        (Except.error "insufficient funds") (Except.ok ()) 0).orders.any
      (fun o => o.side == Side.sell)) = true ∧
    ((arbExecuteOpportunity sampleOp sampleExchanges
        (Except.error "insufficient funds") (Except.ok ()) 0).trades.filter
      (fun t => t.side == Side.sell)).length = 1 := by
  decide

/-- C1 (amended): in the worker generation of `executeOpportunity`, if the
buy-leg order fails with message `msg` then exactly one Trade is recorded —
a buy with `success = false` carrying the raw error — no sell-side order is
placed and no sell-side Trade exists, and the function returns with the
created Position saved open (`closed = false`) and otherwise exactly as it
was created. -/
theorem workerExecuteOpportunity_buy_failure_aborts_sell
    (op : Opportunity) (exchanges : List ExchangeInfo) (bEx sEx : ExchangeInfo)
    (msg : String) (sellOutcome : Except String Unit) (now : ℤ)
    (hb : exchanges.find? (fun e => e.name == op.buyExchange && e.kind == VenueKind.spot)
            = some bEx)
    (hs : exchanges.find? (fun e => e.name == op.sellExchange && e.kind == VenueKind.futures)
            = some sEx) :
    (workerExecuteOpportunity op exchanges (Except.error msg) sellOutcome now).trades
      = [{ symbol := op.symbol, exchange := op.buyExchange, side := Side.buy,
           amount := max (5 / (1 + (1/1000 : ℚ) * 2)) 3, price := op.buyPrice,
           success := false, error := some msg }] ∧
    ((workerExecuteOpportunity op exchanges (Except.error msg) sellOutcome now).orders.all
      (fun o => o.side == Side.buy)) = true ∧
    (workerExecuteOpportunity op exchanges (Except.error msg) sellOutcome now).position
      = some { symbol := op.symbol, exchange := op.buyExchange,
               amount := max (5 / (1 + (1/1000 : ℚ) * 2)) 3 / op.buyPrice,
               buyPrice := op.buyPrice, timestamp := now, closed := false,
               stopLossPrice := some (op.buyPrice * (1 - 5/100)),
               sellPrice := none, profit := none } := by
  simp [workerExecuteOpportunity, hb, hs]

/-- C1 witness: the amended theorem applied at a concrete input. -/
theorem workerExecuteOpportunity_buy_failure_aborts_sell_check :
    (sampleExchanges.find?
        (fun e => e.name == sampleOp.buyExchange && e.kind == VenueKind.spot) = some exSpot) ∧
    ((workerExecuteOpportunity sampleOp sampleExchanges
        (Except.error "boom") (Except.ok ()) 0).orders.all
      (fun o => o.side == Side.buy)) = true :=
  ⟨by decide,
   (workerExecuteOpportunity_buy_failure_aborts_sell sampleOp sampleExchanges exSpot exFut
      "boom" (Except.ok ()) 0 (by decide) (by decide)).2.1⟩

/-! ### C4: successful sell leg leaves the Position open -/

/-- C4 (counterexample): in the `arbitrage.ts` generation, when both legs
succeed the created Position is saved with `closed = true`, contradicting
the claim that a successful directional sell leaves `closed = false`. -/
theorem arbExecuteOpportunity_successful_sell_closes :
    ((arbExecuteOpportunity sampleOp sampleExchanges
        (Except.ok ()) (Except.ok ()) 0).position.map (fun p => p.closed)) = some true := by
  decide

/-- C4 (amended): in the worker generation, when both the buy leg and the
sell leg succeed, two successful Trades are recorded and the Position is
saved with `closed = false` (with `sellPrice`/`profit` copied from the
Opportunity), leaving the closing transition to the PositionSupervisor. -/
theorem workerExecuteOpportunity_successful_sell_keeps_open
    (op : Opportunity) (exchanges : List ExchangeInfo) (bEx sEx : ExchangeInfo) (now : ℤ)
    (hb : exchanges.find? (fun e => e.name == op.buyExchange && e.kind == VenueKind.spot)
            = some bEx)
    (hs : exchanges.find? (fun e => e.name == op.sellExchange && e.kind == VenueKind.futures)
            = some sEx) :
    ((workerExecuteOpportunity op exchanges (Except.ok ()) (Except.ok ()) now).position.map
      (fun p => p.closed)) = some false ∧
    ((workerExecuteOpportunity op exchanges (Except.ok ()) (Except.ok ()) now).trades.all
      (fun t => t.success)) = true ∧
    (workerExecuteOpportunity op exchanges (Except.ok ()) (Except.ok ()) now).trades.length
      = 2 := by
  simp [workerExecuteOpportunity, hb, hs]

/-! ### C2, C3: the worker-generation supervisor's two-leg unwind -/

/-- Every invocation of the worker supervisor either leaves the position row
exactly as it was, or (when it was open, the unwind triggered, and both the
spot sell and the futures buy-back succeeded) rewrites it closed with
`sellPrice`/`profit` set. -/
theorem workerTryConvergence_position_cases (pos : Position) (exchanges : List ExchangeInfo)
    (cfg : SupervisorConfig) (st ft : Option ℚ) (now : ℤ) (so fo : Except String Unit) :
    (workerTryConvergenceForPosition pos exchanges cfg st ft now so fo).position = pos ∨
    ((workerTryConvergenceForPosition pos exchanges cfg st ft now so fo).position
        = { pos with
            closed := true, sellPrice := some (st.getD 0),
            profit := some ((st.getD 0 - pos.buyPrice) * pos.amount * (1 - 1/1000 * 2)) }
      ∧ pos.closed = false ∧ so = Except.ok () ∧ fo = Except.ok ()) := by
  unfold workerTryConvergenceForPosition
  split
  · exact Or.inl rfl
  · split
    · exact Or.inl rfl
    · rename_i hguard
      split
      · exact Or.inl rfl
      · dsimp only
        split
        · split
          · exact Or.inl rfl
          · split
            · refine Or.inr ⟨rfl, ?_, rfl, rfl⟩
              simp at hguard
              exact hguard.1
            · exact Or.inl rfl
        · exact Or.inl rfl

/-- C2: for an open position, if the spot-side sell order fails then the
derivatives-side leg is never attempted that cycle (every order placed and
every Trade recorded is the spot-side sell) and the position is saved back
unchanged, still open; and the position transitions to `closed = true` only
when both unwind legs succeed. -/
theorem workerTryConvergence_unwind_order_and_close
    (pos : Position) (exchanges : List ExchangeInfo) (cfg : SupervisorConfig)
    (st ft : Option ℚ) (now : ℤ) (so fo : Except String Unit) (msg : String)
    (hopen : pos.closed = false) :
    ((workerTryConvergenceForPosition pos exchanges cfg st ft now (Except.error msg) fo).position
        = pos ∧
      ((workerTryConvergenceForPosition pos exchanges cfg st ft now
          (Except.error msg) fo).orders.all (fun o => o.side == Side.sell)) = true ∧
      ((workerTryConvergenceForPosition pos exchanges cfg st ft now
          (Except.error msg) fo).trades.all (fun t => t.side == Side.sell)) = true) ∧
    ((workerTryConvergenceForPosition pos exchanges cfg st ft now so fo).position.closed = true →
      so = Except.ok () ∧ fo = Except.ok ()) := by
  constructor
  · unfold workerTryConvergenceForPosition
    split
    · exact ⟨rfl, rfl, rfl⟩
    · split
      · exact ⟨rfl, rfl, rfl⟩
      · split
        · exact ⟨rfl, rfl, rfl⟩
        · dsimp only
          split
          · exact ⟨rfl, rfl, rfl⟩
          · exact ⟨rfl, rfl, rfl⟩
  · intro hc
    rcases workerTryConvergence_position_cases pos exchanges cfg st ft now so fo with
      h1 | ⟨_, _, hso, hfo⟩
    · rw [h1, hopen] at hc
      exact absurd hc (by decide)
    · exact ⟨hso, hfo⟩

/-- C2 witness: the theorem applied at a concrete input where the spot-side
sell fails. -/
theorem workerTryConvergence_unwind_order_and_close_check :
    samplePos.closed = false ∧
    (workerTryConvergenceForPosition samplePos sampleExchanges sampleSupervCfg
        (some 102) (some 101) 0 (Except.error "venue down") (Except.ok ())).position
      = samplePos :=
  ⟨rfl,
   (workerTryConvergence_unwind_order_and_close samplePos sampleExchanges sampleSupervCfg
      (some 102) (some 101) 0 (Except.error "venue down") (Except.ok ())
      "venue down" rfl).1.1⟩

/-- C3: whenever the worker supervisor closes a position (`closed` becomes
true), `profit` is set to exactly `(spotExitPrice - buyPrice) * amount *
(1 - 2*feeRate)` and `sellPrice` to the spot exit price in that same saved
update; and whenever the update does not close the position, `sellPrice`
and `profit` are left exactly as they were — they are never set without
`closed` becoming true in the same operation. -/
theorem workerTryConvergence_close_profit_formula
    (pos : Position) (exchanges : List ExchangeInfo) (cfg : SupervisorConfig)
    (st ft : Option ℚ) (now : ℤ) (so fo : Except String Unit)
    (hopen : pos.closed = false) :
    ((workerTryConvergenceForPosition pos exchanges cfg st ft now so fo).position.closed = true →
      (workerTryConvergenceForPosition pos exchanges cfg st ft now so fo).position.profit
          = some ((st.getD 0 - pos.buyPrice) * pos.amount * (1 - 2 * (1/1000 : ℚ))) ∧
      (workerTryConvergenceForPosition pos exchanges cfg st ft now so fo).position.sellPrice
          = some (st.getD 0)) ∧
    ((workerTryConvergenceForPosition pos exchanges cfg st ft now so fo).position.closed = false →
      (workerTryConvergenceForPosition pos exchanges cfg st ft now so fo).position.sellPrice
          = pos.sellPrice ∧
      (workerTryConvergenceForPosition pos exchanges cfg st ft now so fo).position.profit
          = pos.profit) := by
  rcases workerTryConvergence_position_cases pos exchanges cfg st ft now so fo with
    h1 | ⟨heq, _, _, _⟩
  · constructor
    · intro hc
      rw [h1, hopen] at hc
      exact absurd hc (by decide)
    · intro _
      rw [h1]
      exact ⟨rfl, rfl⟩
  · constructor
    · intro _
      rw [heq]
      refine ⟨?_, rfl⟩
      norm_num
    · intro hc
      rw [heq] at hc
      simp at hc

/-- C3 witness: the theorem applied at a concrete input where both unwind
legs succeed and the position closes. -/
theorem workerTryConvergence_close_profit_formula_check :
    samplePos.closed = false ∧
    ((workerTryConvergenceForPosition samplePos sampleExchanges sampleSupervCfg
        (some 102) (some 101) 0 (Except.ok ()) (Except.ok ())).position.profit
      = some ((102 - samplePos.buyPrice) * samplePos.amount * (1 - 2 * (1/1000 : ℚ))) ∧
     (workerTryConvergenceForPosition samplePos sampleExchanges sampleSupervCfg
        (some 102) (some 101) 0 (Except.ok ()) (Except.ok ())).position.sellPrice
      = some 102) :=
  ⟨rfl,
   (workerTryConvergence_close_profit_formula samplePos sampleExchanges sampleSupervCfg
      (some 102) (some 101) 0 (Except.ok ()) (Except.ok ()) rfl).1 (by
        norm_num +decide [workerTryConvergenceForPosition, samplePos, sampleExchanges,
          sampleSupervCfg, exSpot, exFut, stopLossBase, mathAbs, List.find?])⟩

/-! ### C5: the spec's worked numeric scenario for the scorer -/

/-- C5 (counterexample): the `arbitrage.ts` generation's scorer uses gross
sizing (`tradeAmount / spotPrice`), so on the spec's scenario (spot 100,
derivatives 110, `tradeAmount = 1000`, volumes and depth sufficient) with
`minProfit = 99.7` it still emits one Opportunity (its net profit is 99.8),
although the claim's bound `minProfit ≤ 99.6008… = 49900/501` fails —
refuting the claimed quantity `1000/1.002/100` and the claimed
qualification condition for this scorer. -/
theorem arbEvalPair_gross_sizing_breaks_iff :
    (arbEvalPair "gate" "bybit" "XRP/USDT" (some (100, 200)) (some (110, 200))
        (Except.ok { spotTopBidQty := some 1000, futuresTopAskQty := some 1000 })
        { minVolume := 100, minProfit := 997/10, maxProfit := 1000,
          tradeAmount := 1000 }).length = 1 ∧
    ¬((997/10 : ℚ) ≤ 49900/501) := by
  constructor
  · norm_num [arbEvalPair, mathAbs]
  · norm_num

/-- C5 (amended): for the worker generation's net-of-fees scorer, on the
spec's scenario (spot 100, derivatives 110, both volumes at least
`minVolume`, top-of-book depth covering the computed quantity,
`tradeAmount = 1000`, `feeRate = 0.001`) the computed base quantity is
`5000/501 = 1000/(1.002)/100 ≈ 9.98`, the net profit is
`49900/501 ≈ 99.6`, and exactly one arbitrage Opportunity is emitted iff
`minProfit ≤ 49900/501 ≤ maxProfit`. -/
theorem workerEvalPair_spec_scenario
    (spotName futuresName symbol : String)
    (minVolume minProfit maxProfit vs vf bid ask : ℚ)
    (hvs : minVolume ≤ vs) (hvf : minVolume ≤ vf)
    (hbid : (5000/501 : ℚ) ≤ bid) (hask : (5000/501 : ℚ) ≤ ask) :
    workerEvalPair spotName futuresName symbol (some (100, vs)) (some (110, vf))
        (Except.ok { spotTopBidQty := some bid, futuresTopAskQty := some ask })
        { minVolume := minVolume, minProfit := minProfit,
          maxProfit := maxProfit, tradeAmount := 1000 } =
      (if minProfit ≤ 49900/501 ∧ (49900/501 : ℚ) ≤ maxProfit then
        [{ type := OppType.arbitrage, buyExchange := spotName, sellExchange := futuresName,
           symbol := symbol, buyPrice := 100, sellPrice := 110, profit := 49900/501 }]
      else []) ∧
    (5000/501 : ℚ) = 1000 / (1 + 2 * (1/1000)) / 100 ∧
    (49900/501 : ℚ) = (110 - 100) * (1000 / (1 + 2 * (1/1000)) / 100) * (1 - 2 * (1/1000)) := by
  refine ⟨?_, by norm_num, by norm_num⟩
  have hstep : workerEvalPair spotName futuresName symbol (some (100, vs)) (some (110, vf))
      (Except.ok { spotTopBidQty := some bid, futuresTopAskQty := some ask })
      { minVolume := minVolume, minProfit := minProfit,
        maxProfit := maxProfit, tradeAmount := 1000 } =
      (if vs < minVolume ∨ vf < minVolume then []
       else if bid < 1000 / (1 + (1:ℚ)/1000 * 2) / 100 ∨
              ask < 1000 / (1 + (1:ℚ)/1000 * 2) / 100 then []
       else if (100:ℚ) < 110 then
         if minProfit ≤ ((110:ℚ) - 100) * (1000 / (1 + (1:ℚ)/1000 * 2) / 100) -
                ((110:ℚ) - 100) * (1000 / (1 + (1:ℚ)/1000 * 2) / 100) * (1/1000) * 2 ∧
            ((110:ℚ) - 100) * (1000 / (1 + (1:ℚ)/1000 * 2) / 100) -
                ((110:ℚ) - 100) * (1000 / (1 + (1:ℚ)/1000 * 2) / 100) * (1/1000) * 2 ≤
              maxProfit then
           [{ type := OppType.arbitrage, buyExchange := spotName, sellExchange := futuresName,
              symbol := symbol, buyPrice := 100, sellPrice := 110,
              profit := ((110:ℚ) - 100) * (1000 / (1 + (1:ℚ)/1000 * 2) / 100) -
                ((110:ℚ) - 100) * (1000 / (1 + (1:ℚ)/1000 * 2) / 100) * (1/1000) * 2 }]
         else []
       else []) := rfl
  rw [hstep]
  have hg1 : ¬(vs < minVolume ∨ vf < minVolume) := by
    rw [not_or, not_lt, not_lt]
    exact ⟨hvs, hvf⟩
  rw [if_neg hg1]
  have hamt : (1000:ℚ) / (1 + (1:ℚ)/1000 * 2) / 100 = 5000/501 := by norm_num
  rw [hamt]
  have hg2 : ¬(bid < (5000/501 : ℚ) ∨ ask < (5000/501 : ℚ)) := by
    rw [not_or, not_lt, not_lt]
    exact ⟨hbid, hask⟩
  rw [if_neg hg2]
  rw [if_pos (by norm_num : (100:ℚ) < 110)]
  rw [show ((110:ℚ) - 100) * (5000/501) - ((110:ℚ) - 100) * (5000/501) * (1/1000) * 2
      = 49900/501 from by norm_num]

/-- C5 witness: the amended theorem applied at a concrete input where the
opportunity qualifies. -/
theorem workerEvalPair_spec_scenario_check :
    ((100:ℚ) ≤ 200) ∧ ((5000/501 : ℚ) ≤ 1000) ∧
    (workerEvalPair "gate" "bybit" "XRP/USDT" (some (100, 200)) (some (110, 200))
        (Except.ok { spotTopBidQty := some 1000, futuresTopAskQty := some 1000 })
        { minVolume := 100, minProfit := 5, maxProfit := 1000, tradeAmount := 1000 } =
      (if (5:ℚ) ≤ 49900/501 ∧ (49900/501 : ℚ) ≤ 1000 then
        [{ type := OppType.arbitrage, buyExchange := "gate", sellExchange := "bybit",
           symbol := "XRP/USDT", buyPrice := 100, sellPrice := 110, profit := 49900/501 }]
      else []) ∧
      (5000/501 : ℚ) = 1000 / (1 + 2 * (1/1000)) / 100 ∧
      (49900/501 : ℚ) = (110 - 100) * (1000 / (1 + 2 * (1/1000)) / 100) * (1 - 2 * (1/1000))) :=
  ⟨by norm_num, by norm_num,
   workerEvalPair_spec_scenario "gate" "bybit" "XRP/USDT" 100 5 1000 200 200 1000 1000
     (by norm_num) (by norm_num) (by norm_num) (by norm_num)⟩

/-! ### C6: monotonicity of `closed` across all operations -/

theorem arbTryConvergence_unchanged_of_closed (pos : Position) (exchanges : List ExchangeInfo)
    (cfg : SupervisorConfig) (ct : Option ℚ) (tk : String → Option ℚ)
    (oc : String → Except String Unit) (now : ℤ) (h : pos.closed = true) :
    (arbTryConvergenceForPosition pos exchanges cfg ct tk oc now).position = pos := by
  unfold arbTryConvergenceForPosition
  split
  · rfl
  · split
    · rfl
    · rename_i hguard
      simp [h] at hguard

theorem workerTryConvergence_unchanged_of_closed (pos : Position) (exchanges : List ExchangeInfo)
    (cfg : SupervisorConfig) (st ft : Option ℚ) (now : ℤ) (so fo : Except String Unit)
    (h : pos.closed = true) :
    (workerTryConvergenceForPosition pos exchanges cfg st ft now so fo).position = pos := by
  rcases workerTryConvergence_position_cases pos exchanges cfg st ft now so fo with h1 | ⟨_, h2, _⟩
  · exact h1
  · rw [h] at h2
    exact absurd h2 (by decide)

theorem applyOp_closed_mono (exchanges : List ExchangeInfo) (store : List Position)
    (o : SysOp) (i : Nat)
    (h : (store[i]?.map (fun p => p.closed)) = some true) :
    ((applyOp exchanges store o)[i]?.map (fun p => p.closed)) = some true := by
  have hi : i < store.length := by
    rcases hsome : store[i]? with _ | p
    · rw [hsome] at h
      simp at h
    · exact (List.getElem?_eq_some_iff.mp hsome).1
  cases o with
  | execArb op b s now =>
    simp only [applyOp]
    split
    · rw [List.getElem?_append_left hi]
      exact h
    · exact h
  | execWorker op b s now =>
    simp only [applyOp]
    split
    · rw [List.getElem?_append_left hi]
      exact h
    · exact h
  | supervWorker idx cfg st ft now so fo =>
    simp only [applyOp]
    split
    · rename_i pos hpos
      by_cases hij : idx = i
      · subst hij
        rw [hpos] at h
        simp at h
        rw [List.getElem?_set_self (by simpa using hi)]
        simp [workerTryConvergence_unchanged_of_closed pos exchanges cfg st ft now so fo h, h]
      · rw [List.getElem?_set_ne hij]
        exact h
    · exact h
  | supervArb idx cfg ct tk oc now =>
    simp only [applyOp]
    split
    · rename_i pos hpos
      by_cases hij : idx = i
      · subst hij
        rw [hpos] at h
        simp at h
        rw [List.getElem?_set_self (by simpa using hi)]
        simp [arbTryConvergence_unchanged_of_closed pos exchanges cfg ct tk oc now h, h]
      · rw [List.getElem?_set_ne hij]
        exact h
    · exact h

/-- C6: `closed` is monotone under every operation of the system — for any
sequence of `executeOpportunity` / `tryConvergenceForPosition` invocations
(of either generation), a Position row that is closed stays closed. -/
theorem closed_monotone_runOps (exchanges : List ExchangeInfo) (ops : List SysOp)
    (store : List Position) (i : Nat)
    (h : (store[i]?.map (fun p => p.closed)) = some true) :
    (((runOps exchanges store ops)[i]?).map (fun p => p.closed)) = some true := by
  induction ops generalizing store with
  | nil => exact h
  | cons o rest ih =>
    exact ih (applyOp exchanges store o) (applyOp_closed_mono exchanges store o i h)

/-- C6 witness: the theorem applied to a concrete closed position and a
concrete history of operations. -/
theorem closed_monotone_runOps_check :
    (([sampleClosedPos][0]?).map (fun p => p.closed)) = some true ∧
    (((runOps sampleExchanges [sampleClosedPos]
        [SysOp.execWorker sampleOp (Except.ok ()) (Except.ok ()) 0,
         SysOp.supervWorker 0 sampleSupervCfg (some 102) (some 101) 0
           (Except.ok ()) (Except.ok ()),
         SysOp.execArb sampleOp (Except.error "boom") (Except.ok ()) 0])[0]?).map
      (fun p => p.closed)) = some true :=
  ⟨by decide,
   closed_monotone_runOps sampleExchanges
     [SysOp.execWorker sampleOp (Except.ok ()) (Except.ok ()) 0,
      SysOp.supervWorker 0 sampleSupervCfg (some 102) (some 101) 0
        (Except.ok ()) (Except.ok ()),
      SysOp.execArb sampleOp (Except.error "boom") (Except.ok ()) 0]
     [sampleClosedPos] 0 (by decide)⟩

/-- C4 witness: the amended theorem applied at a concrete input. -/
theorem workerExecuteOpportunity_successful_sell_keeps_open_check :
    (sampleExchanges.find?
        (fun e => e.name == sampleOp.sellExchange && e.kind == VenueKind.futures)
      = some exFut) ∧
    ((workerExecuteOpportunity sampleOp sampleExchanges
        (Except.ok ()) (Except.ok ()) 0).position.map (fun p => p.closed)) = some false :=
  ⟨by decide,
   (workerExecuteOpportunity_successful_sell_keeps_open sampleOp sampleExchanges exSpot exFut
      0 (by decide) (by decide)).1⟩

/-! ### C7: per-slot fault isolation in the poller -/

/-- Congruence for the per-venue symbol loop: two runs whose fetch oracles
agree away from one designated slot produce the same cache away from that
slot and the same persisted rows for all other slots. -/
theorem pollSymbols_congr (fetch fetch' : String → String → Except String TickerData)
    (v₀ s₀ : String)
    (hf : ∀ p q, ¬(p = v₀ ∧ q = s₀) → fetch p q = fetch' p q)
    (v : String) (l : List String) :
    ∀ (c c' : PriceCache), (∀ p q, ¬(p = v₀ ∧ q = s₀) → c p q = c' p q) →
      (∀ p q, ¬(p = v₀ ∧ q = s₀) →
        (pollSymbols fetch v l c).1 p q = (pollSymbols fetch' v l c').1 p q) ∧
      (pollSymbols fetch v l c).2.filter (offSlot v₀ s₀)
        = (pollSymbols fetch' v l c').2.filter (offSlot v₀ s₀) := by
  induction l with
  | nil =>
    intro c c' hc
    exact ⟨hc, rfl⟩
  | cons s rest ih =>
    intro c c' hc
    by_cases hslot : v = v₀ ∧ s = s₀
    · obtain ⟨hv, hs⟩ := hslot
      subst hv
      subst hs
      rcases h1 : fetch v s with m1 | t1 <;> rcases h2 : fetch' v s with m2 | t2
      · simp only [pollSymbols, h1, h2]
        exact ih c c' hc
      · simp only [pollSymbols, h1, h2]
        obtain ⟨ihc, ihr⟩ := ih c (updateCache c' v s (t2.last.getD 0, t2.baseVolume.getD 0))
          (fun p q h => by
            unfold updateCache
            rw [if_neg h]
            exact hc p q h)
        refine ⟨ihc, ?_⟩
        rw [List.filter_cons_of_neg (by simp [offSlot]), ihr]
      · simp only [pollSymbols, h1, h2]
        obtain ⟨ihc, ihr⟩ := ih (updateCache c v s (t1.last.getD 0, t1.baseVolume.getD 0)) c'
          (fun p q h => by
            unfold updateCache
            rw [if_neg h]
            exact hc p q h)
        refine ⟨ihc, ?_⟩
        rw [List.filter_cons_of_neg (by simp [offSlot]), ihr]
      · simp only [pollSymbols, h1, h2]
        obtain ⟨ihc, ihr⟩ := ih (updateCache c v s (t1.last.getD 0, t1.baseVolume.getD 0))
          (updateCache c' v s (t2.last.getD 0, t2.baseVolume.getD 0))
          (fun p q h => by
            unfold updateCache
            rw [if_neg h, if_neg h]
            exact hc p q h)
        refine ⟨ihc, ?_⟩
        rw [List.filter_cons_of_neg (by simp [offSlot]),
          List.filter_cons_of_neg (by simp [offSlot]), ihr]
    · have hfv : fetch v s = fetch' v s := hf v s hslot
      rcases h1 : fetch v s with m | t
      · have h2 : fetch' v s = Except.error m := hfv.symm.trans h1
        simp only [pollSymbols, h1, h2]
        exact ih c c' hc
      · have h2 : fetch' v s = Except.ok t := hfv.symm.trans h1
        simp only [pollSymbols, h1, h2]
        obtain ⟨ihc, ihr⟩ := ih (updateCache c v s (t.last.getD 0, t.baseVolume.getD 0))
          (updateCache c' v s (t.last.getD 0, t.baseVolume.getD 0))
          (fun p q h => by
            by_cases hpq : p = v ∧ q = s
            · unfold updateCache
              rw [if_pos hpq, if_pos hpq]
            · unfold updateCache
              rw [if_neg hpq, if_neg hpq]
              exact hc p q h)
        refine ⟨ihc, ?_⟩
        have hoff : offSlot v₀ s₀
            { symbol := s, exchange := v, price := t.last.getD 0,
              volume := some (t.baseVolume.getD 0),
              opportunityType := none, profit := none } = true := by
          simp only [offSlot]
          by_cases hv : v = v₀
          · have hs : s ≠ s₀ := fun hs => hslot ⟨hv, hs⟩
            simp [hv, hs]
          · simp [hv]
        rw [List.filter_cons_of_pos hoff, List.filter_cons_of_pos hoff, ihr]

/-- The same congruence lifted to a whole polling cycle over every venue. -/
theorem pollVenues_congr (fetch fetch' : String → String → Except String TickerData)
    (v₀ s₀ : String)
    (hf : ∀ p q, ¬(p = v₀ ∧ q = s₀) → fetch p q = fetch' p q)
    (symbols : List String) (venues : List String) :
    ∀ (c c' : PriceCache), (∀ p q, ¬(p = v₀ ∧ q = s₀) → c p q = c' p q) →
      (∀ p q, ¬(p = v₀ ∧ q = s₀) →
        (pollVenues fetch symbols venues c).1 p q
          = (pollVenues fetch' symbols venues c').1 p q) ∧
      (pollVenues fetch symbols venues c).2.filter (offSlot v₀ s₀)
        = (pollVenues fetch' symbols venues c').2.filter (offSlot v₀ s₀) := by
  induction venues with
  | nil =>
    intro c c' hc
    exact ⟨hc, rfl⟩
  | cons v rest ih =>
    intro c c' hc
    have hclear : ∀ p q, ¬(p = v₀ ∧ q = s₀) → clearVenue c v p q = clearVenue c' v p q := by
      intro p q h
      unfold clearVenue
      split
      · rfl
      · exact hc p q h
    obtain ⟨ihc1, ihr1⟩ :=
      pollSymbols_congr fetch fetch' v₀ s₀ hf v symbols (clearVenue c v) (clearVenue c' v) hclear
    obtain ⟨ihc2, ihr2⟩ := ih _ _ ihc1
    refine ⟨ihc2, ?_⟩
    simp only [pollVenues, pollVenue]
    rw [List.filter_append, List.filter_append, ihr1, ihr2]

/-- C7: within one polling cycle, a failure of the fetch at one designated
(venue, symbol) slot leaves the price cache at every other slot, and the
persisted Price rows of every other slot, exactly as they would be without
the failure. -/
theorem pollVenues_fault_isolation
    (fetch fetch' : String → String → Except String TickerData)
    (v₀ s₀ : String) (venues symbols : List String) (c : PriceCache) (v s : String)
    (hf : ∀ p q, ¬(p = v₀ ∧ q = s₀) → fetch p q = fetch' p q)
    (hvs : ¬(v = v₀ ∧ s = s₀)) :
    (pollVenues fetch symbols venues c).1 v s = (pollVenues fetch' symbols venues c).1 v s ∧
    (pollVenues fetch symbols venues c).2.filter (offSlot v₀ s₀)
      = (pollVenues fetch' symbols venues c).2.filter (offSlot v₀ s₀) :=
  have h := pollVenues_congr fetch fetch' v₀ s₀ hf symbols venues c c (fun _ _ _ => rfl)
  ⟨h.1 v s hvs, h.2⟩

/-- C7 witness: the theorem applied to a concrete cycle where one slot's
fetch times out. -/
theorem pollVenues_fault_isolation_check :
    (¬("bybit" = "gate" ∧ "BTC/USDT" = "BTC/USDT")) ∧
    ((pollVenues c7fetchFail ["XRP/USDT", "BTC/USDT"] ["gate", "bybit"] (fun _ _ => none)).1
        "bybit" "BTC/USDT"
      = (pollVenues c7fetchOk ["XRP/USDT", "BTC/USDT"] ["gate", "bybit"] (fun _ _ => none)).1
        "bybit" "BTC/USDT" ∧
     (pollVenues c7fetchFail ["XRP/USDT", "BTC/USDT"] ["gate", "bybit"]
        (fun _ _ => none)).2.filter (offSlot "gate" "BTC/USDT")
      = (pollVenues c7fetchOk ["XRP/USDT", "BTC/USDT"] ["gate", "bybit"]
        (fun _ _ => none)).2.filter (offSlot "gate" "BTC/USDT")) :=
  ⟨by decide,
   pollVenues_fault_isolation c7fetchFail c7fetchOk "gate" "BTC/USDT"
     ["gate", "bybit"] ["XRP/USDT", "BTC/USDT"] (fun _ _ => none) "bybit" "BTC/USDT"
     (fun p q h => by
       unfold c7fetchFail c7fetchOk
       rw [if_neg h])
     (by decide)⟩

/-! ### C8: quotes with missing/zero last price are not skipped -/

/-- Slots a symbol pass never touches keep their prior cache value. -/
theorem pollSymbols_frame (fetch : String → String → Except String TickerData)
    (v : String) (l : List String) :
    ∀ (c : PriceCache) (p q : String), (p ≠ v ∨ q ∉ l) →
      (pollSymbols fetch v l c).1 p q = c p q := by
  induction l with
  | nil =>
    intro c p q _
    rfl
  | cons s rest ih =>
    intro c p q h
    have hrest : p ≠ v ∨ q ∉ rest := h.imp id (fun hq hmem => hq (List.mem_cons_of_mem s hmem))
    rcases hfe : fetch v s with m | t
    · simp only [pollSymbols, hfe]
      exact ih c p q hrest
    · simp only [pollSymbols, hfe]
      rw [ih _ p q hrest]
      unfold updateCache
      rw [if_neg (by
        rintro ⟨hp, hq⟩
        rcases h with h | h
        · exact h hp
        · exact h (hq ▸ List.mem_cons_self s rest))]

/-- The cache value a symbol pass leaves at a polled slot: a thrown fetch
leaves the prior value, a returned quote (whatever its `last`) writes
`(last ?? 0, baseVolume ?? 0)`. -/
theorem pollSymbols_lookup (fetch : String → String → Except String TickerData)
    (v : String) (l : List String) :
    ∀ (c : PriceCache) (s : String), s ∈ l →
      (pollSymbols fetch v l c).1 v s
        = (match fetch v s with
           | Except.error _ => c v s
           | Except.ok t => some (t.last.getD 0, t.baseVolume.getD 0)) := by
  induction l with
  | nil =>
    intro c s h
    cases h
  | cons s' rest ih =>
    intro c s h
    by_cases hmem : s ∈ rest
    · rcases hfe : fetch v s' with m | t
      · simp only [pollSymbols, hfe]
        exact ih c s hmem
      · simp only [pollSymbols, hfe]
        rw [ih _ s hmem]
        rcases hfs : fetch v s with m2 | t2
        · have hss : s ≠ s' := fun hss => by
            rw [hss, hfe] at hfs
            cases hfs
          simp only [hfs]
          unfold updateCache
          rw [if_neg (by
            rintro ⟨_, hq⟩
            exact hss hq)]
        · simp only [hfs]
    · have hss : s = s' := by
        rcases List.mem_cons.mp h with h' | h'
        · exact h'
        · exact absurd h' hmem
      subst hss
      rcases hfe : fetch v s with m | t
      · simp only [pollSymbols, hfe]
        rw [pollSymbols_frame fetch v rest _ v s (Or.inr hmem)]
      · simp only [pollSymbols, hfe]
        rw [pollSymbols_frame fetch v rest _ v s (Or.inr hmem)]
        unfold updateCache
        rw [if_pos ⟨rfl, rfl⟩]

/-- Every successfully fetched (venue, symbol) slot leaves at least one
persisted Price row carrying `last ?? 0` as its price. -/
theorem pollSymbols_records (fetch : String → String → Except String TickerData)
    (v : String) (l : List String) :
    ∀ (c : PriceCache) (s : String) (t : TickerData), s ∈ l → fetch v s = Except.ok t →
      0 < ((pollSymbols fetch v l c).2.filter
        (fun r => r.exchange == v && r.symbol == s && r.price == t.last.getD 0)).length := by
  induction l with
  | nil =>
    intro c s t h _
    cases h
  | cons s' rest ih =>
    intro c s t h hok
    rcases hfe : fetch v s' with m | t'
    · have hss : s ≠ s' := fun hss => by
        rw [hss, hfe] at hok
        cases hok
      have hmem : s ∈ rest := (List.mem_cons.mp h).resolve_left hss
      simp only [pollSymbols, hfe]
      exact ih c s t hmem hok
    · simp only [pollSymbols, hfe]
      by_cases hss : s = s'
      · subst hss
        have ht : t' = t := by
          rw [hfe] at hok
          exact Except.ok.inj hok
        subst ht
        rw [List.filter_cons_of_pos (by simp)]
        simp
      · have hmem : s ∈ rest := (List.mem_cons.mp h).resolve_left hss
        rw [List.filter_cons]
        have hrec := ih (updateCache c v s' (t'.last.getD 0, t'.baseVolume.getD 0)) s t hmem hok
        split
        · simp only [List.length_cons]
          omega
        · exact hrec

/-- C8 (counterexample): a quote whose `last` price is missing is NOT
treated as "no data": `last ?? 0` coalesces it to 0, the cycle writes a
price-0 cache entry for the slot and persists a price-0 Price row —
contradicting the claim that such slots are skipped with no cache entry
and no persisted record. -/
theorem poll_missing_last_not_skipped :
    (pollVenues c8fetch ["BTC/USDT"] ["gate"] (fun _ _ => none)).1 "gate" "BTC/USDT"
      = some (0, 5) ∧
    (pollVenues c8fetch ["BTC/USDT"] ["gate"] (fun _ _ => none)).2
      = [{ symbol := "BTC/USDT", exchange := "gate", price := 0, volume := some 5,
           opportunityType := none, profit := none }] := by
  constructor
  · decide
  · decide

/-- C8 (amended): only a ticker fetch that throws is skipped for the cycle;
any returned quote — including one with a missing or zero `last` price —
produces a cache entry `(last ?? 0, baseVolume ?? 0)` for its slot and at
least one persisted Price row with that (possibly zero) price. -/
theorem poll_ok_quote_always_recorded
    (fetch : String → String → Except String TickerData)
    (v s : String) (symbols : List String) (c : PriceCache) (t : TickerData)
    (hmem : s ∈ symbols) (hok : fetch v s = Except.ok t) :
    (pollVenues fetch symbols [v] c).1 v s = some (t.last.getD 0, t.baseVolume.getD 0) ∧
    0 < ((pollVenues fetch symbols [v] c).2.filter
      (fun r => r.exchange == v && r.symbol == s && r.price == t.last.getD 0)).length := by
  constructor
  · have h := pollSymbols_lookup fetch v symbols (clearVenue c v) s hmem
    rw [show (pollVenues fetch symbols [v] c).1
        = (pollSymbols fetch v symbols (clearVenue c v)).1 from rfl]
    rw [h]
    simp only [hok]
  · have h := pollSymbols_records fetch v symbols (clearVenue c v) s t hmem hok
    rw [show (pollVenues fetch symbols [v] c).2
        = (pollSymbols fetch v symbols (clearVenue c v)).2 ++ [] from rfl]
    rw [List.append_nil]
    exact h

/-- C8 witness: the amended theorem applied to the concrete missing-`last`
quote. -/
theorem poll_ok_quote_always_recorded_check :
    ("BTC/USDT" ∈ ["BTC/USDT"]) ∧
    (c8fetch "gate" "BTC/USDT" = Except.ok { last := none, baseVolume := some 5 }) ∧
    (pollVenues c8fetch ["BTC/USDT"] ["gate"] (fun _ _ => none)).1 "gate" "BTC/USDT"
      = some (0, 5) :=
  ⟨by decide, rfl,
   (poll_ok_quote_always_recorded c8fetch "gate" "BTC/USDT" ["BTC/USDT"] (fun _ _ => none)
      { last := none, baseVolume := some 5 } (by decide) rfl).1⟩

/-! ### C9: execution sizing is hardcoded, independent of configuration -/

/-- C9: both generations of `executeOpportunity` size the created Position
from a hardcoded notional — `5/(1.002)` quote units (the 3-USDT clamp being
inactive) in the worker generation and `1000` quote units in the
`arbitrage.ts` generation — divided by the Opportunity's buy price; neither
formula mentions the configured `tradeAmount` or the quantity the scorer's
liquidity check validated. -/
theorem execute_amount_hardcoded
    (op : Opportunity) (exchanges : List ExchangeInfo)
    (b s b' s' : Except String Unit) (now now' : ℤ) (p q : Position)
    (hw : (workerExecuteOpportunity op exchanges b s now).position = some p)
    (ha : (arbExecuteOpportunity op exchanges b' s' now').position = some q) :
    p.amount = 5 / (1 + (1/1000 : ℚ) * 2) / op.buyPrice ∧
    q.amount = 1000 / op.buyPrice := by
  have hmax : max (5 / (1 + (1/1000 : ℚ) * 2)) 3 = 5 / (1 + (1/1000 : ℚ) * 2) :=
    max_eq_left (by norm_num)
  constructor
  · unfold workerExecuteOpportunity at hw
    split at hw
    · dsimp only at hw
      split at hw
      · cases hw
        dsimp only
        rw [hmax]
      · split at hw
        · cases hw
          dsimp only
          rw [hmax]
        · cases hw
          dsimp only
          rw [hmax]
    · cases hw
  · unfold arbExecuteOpportunity at ha
    dsimp only at ha
    split at ha
    · cases ha
      rfl
    · cases ha
      rfl

/-- C9 witness: the theorem applied at concrete inputs of both
generations. -/
theorem execute_amount_hardcoded_check :
    ((workerExecuteOpportunity sampleOp sampleExchanges
        (Except.error "nope") (Except.ok ()) 0).position = some c9posWorker) ∧
    ((arbExecuteOpportunity sampleOp sampleExchanges
        (Except.error "nope") (Except.error "down") 0).position = some c9posArb) ∧
    (c9posWorker.amount = 5 / (1 + (1/1000 : ℚ) * 2) / sampleOp.buyPrice ∧
     c9posArb.amount = 1000 / sampleOp.buyPrice) :=
  ⟨rfl, rfl,
   execute_amount_hardcoded sampleOp sampleExchanges
     (Except.error "nope") (Except.ok ()) (Except.error "nope") (Except.error "down")
     0 0 c9posWorker c9posArb rfl rfl⟩

/-! ### C10: `monitorOpportunities` never resolves with an empty list -/

/-- C10: whenever the monitor loop returns at all, the Opportunity list it
returns is non-empty — a cycle with no qualifying opportunity sleeps and
retries instead of returning. -/
theorem monitorLoop_returns_nonempty (cfg : ScorerConfig) (cycles : Nat → List PairInput)
    (k : Nat) (acc : List Opportunity) (fuel : Nat) (l : List Opportunity)
    (h : monitorLoop cfg cycles k acc fuel = some l) : l ≠ [] := by
  induction fuel generalizing k acc with
  | zero =>
    simp [monitorLoop] at h
  | succ n ih =>
    simp only [monitorLoop] at h
    split at h
    · rename_i hlen
      cases h
      intro hnil
      rw [hnil] at hlen
      simp at hlen
    · exact ih _ _ h

/-- C10 witness: the theorem applied to a run that returns after one
cycle. -/
theorem monitorLoop_returns_nonempty_check :
    (monitorLoop { minVolume := 100, minProfit := 5, maxProfit := 1000, tradeAmount := 1000 }
        (fun _ => [c10cycle]) 0 [] 1
      = some [{ type := OppType.arbitrage, buyExchange := "gate", sellExchange := "bybit",
                symbol := "XRP/USDT", buyPrice := 100, sellPrice := 110,
                profit := (49900/501 : ℚ) }]) ∧
    [{ type := OppType.arbitrage, buyExchange := "gate", sellExchange := "bybit",
       symbol := "XRP/USDT", buyPrice := 100, sellPrice := 110,
       profit := (49900/501 : ℚ) }] ≠ ([] : List Opportunity) :=
  ⟨by norm_num [monitorLoop, cycleOpportunities, c10cycle, workerEvalPair],
   monitorLoop_returns_nonempty
     { minVolume := 100, minProfit := 5, maxProfit := 1000, tradeAmount := 1000 }
     (fun _ => [c10cycle]) 0 [] 1
     [{ type := OppType.arbitrage, buyExchange := "gate", sellExchange := "bybit",
        symbol := "XRP/USDT", buyPrice := 100, sellPrice := 110,
        profit := (49900/501 : ℚ) }]
     (by norm_num [monitorLoop, cycleOpportunities, c10cycle, workerEvalPair])⟩
